import Mathlib

/-!
Verification development for the caza2026_v2 frontend: a shallow embedding of
the paginated list-and-action view pattern (Inscripciones, Reses,
PagosRealizados), the api.js paged-collection fetchers, and the
AuthContext session check, together with theorems settling the spec claims.

Conventions of the embedding:
* JavaScript strings are Lean `String`; a missing/undefined string field is
  modelled as `""` (both are falsy under the `!x` checks the code performs).
* A possibly-absent array field (`x || []`) is modelled as a plain `List`
  with `[]` for the absent case.
* Asynchronous backend calls are modelled by Boolean oracles (`sendOk`,
  `logOk`, ...): `true` means the awaited promise resolved, `false` means it
  rejected and control jumped to the enclosing `catch`.
* React state setters become explicit state-record updates; per-row flag maps
  (`sendingPayment`, ...) become total functions with pointwise update.
* Each handler also returns the list of network requests it issued, in order,
  so that claims about which calls are made ("exactly one call", "no
  re-fetch") are statable.
-/

set_option autoImplicit false

namespace Caza

/-! ## Generic string helpers (JavaScript string membership) -/

/-- Char-list prefix test: the first list is an initial segment of the second. -/
def isPrefOf : List Char → List Char → Bool
  | [], _ => true
  | _ :: _, [] => false
  | a :: as, b :: bs => a == b && isPrefOf as bs

/-- Char-list substring test: `hasSub p s` holds when `p` occurs contiguously
inside `s` (the semantics of JavaScript `s.includes(p)` on char lists). -/
def hasSub (p : List Char) : List Char → Bool
  | [] => isPrefOf p []
  | c :: rest => isPrefOf p (c :: rest) || hasSub p rest

/-- JavaScript `c.toLowerCase()` on one char (ASCII and Unicode simple
lowercasing, as `Char.toLower` provides). -/
def jsLower (l : List Char) : List Char :=
  l.map Char.toLower

/-- The idiom `s.toLowerCase().includes(pat.toLowerCase())` every filter in
the source uses. -/
def jsIncludesLower (s pat : String) : Bool :=
  hasSub (jsLower pat.data) (jsLower s.data)

/-! ## JavaScript `Set`-based deduplication

`[...new Set(l)]` keeps the first occurrence of each element, in insertion
order. -/

/-- Worker for `setDedup`: `seen` are the elements already emitted. -/
def setDedupGo (seen : List String) : List String → List String
  | [] => []
  | x :: xs => if x ∈ seen then setDedupGo seen xs else x :: setDedupGo (x :: seen) xs

/-- JavaScript `[...new Set(l)]`: first-occurrence deduplication. -/
def setDedup (l : List String) : List String :=
  setDedupGo [] l

/-! ## Data model: rows and pages -/

/-- A registration row, with the fields the Inscripciones page reads.
`tipo_establecimiento` stands for the display-language key
`inscripcion!su establecimiento es!` of the source. -/
structure Inscripcion where
  numero_inscripcion : String
  email : String
  nombre_establecimiento : String
  razon_social : String
  cuit : String
  tipo_establecimiento : String
  sent_statuses : List String
  deriving Repr, DecidableEq

/-- A history entry of a Reses row (`reses/log-action` record). -/
structure HistEntry where
  timestamp : String
  details : String
  deriving Repr, DecidableEq

/-- A livestock-transport row, with the fields the Reses page reads.
`nombreApellido`, `dni`, `especie` stand for the display-language keys
`!Nombre y Apellido!`, `!DNI!`, `!Especie!`.  `permanent_amount` keeps the raw
amount string (the source stores `parseFloat(amount)`; the numeric value is
only displayed, never computed with, so the string carries the same
information). -/
structure Res where
  ID : String
  Email : String
  nombreApellido : String
  dni : String
  especie : String
  docx_id : String
  docx_link : String
  is_paid : Option Bool
  permanent_amount : Option String
  sent_statuses : List String
  history : List HistEntry
  deriving Repr, DecidableEq

/-- A payment row of the PagosRealizados table. -/
structure Payment where
  payment_id : String
  inscription_id : String
  permiso_id : String
  status : String
  amount : String
  email : String
  date_created : String
  deriving Repr, DecidableEq

/-- The paged JSON shape the backend returns:
`(data: [...], total_records, page, limit, total_pages)`. -/
structure PageResult (α : Type) where
  data : List α
  total_records : Nat
  page : Nat
  limit : Nat
  total_pages : Nat
  deriving Repr, DecidableEq

/-- Outcome of one `fetch` + `response.json()` round trip:
transport rejection, or an HTTP response with its `ok` flag and the decoded
body (`none` when the body fails to decode as the paged shape). -/
inductive FetchOutcome (α : Type) where
  | transportError : FetchOutcome α
  | response (ok : Bool) (body : Option (PageResult α)) : FetchOutcome α
  deriving Repr, DecidableEq

/-- An outcome on which the try body of an api.js fetcher cannot reach
`return data`: transport failure, non-2xx status, or undecodable body. -/
def FetchOutcome.isFailure {α : Type} : FetchOutcome α → Bool
  | .transportError => true
  | .response ok body => !ok || body.isNone

/-- The catch-branch value of the paged api.js fetchers:
`(data: [], total_records: 0, page: 1, limit: 10, total_pages: 0)`. -/
def emptyStructuredResponse (α : Type) : PageResult α :=
  { data := [], total_records := 0, page := 1, limit := 10, total_pages := 0 }

/-- api.js `fetchInscripciones`: on a 2xx response with a decodable body it
returns the body; on any failure the catch returns the structured empty
response.  It never rejects. -/
def fetchInscripciones (o : FetchOutcome Inscripcion) : PageResult Inscripcion :=
  match o with
  | .transportError => emptyStructuredResponse Inscripcion
  | .response ok body =>
      if ok then
        match body with
        | some d => d
        | none => emptyStructuredResponse Inscripcion
      else emptyStructuredResponse Inscripcion

/-- api.js `fetchPayments`: same try/catch shape as `fetchInscripciones`. -/
def fetchPayments (o : FetchOutcome Payment) : PageResult Payment :=
  match o with
  | .transportError => emptyStructuredResponse Payment
  | .response ok body =>
      if ok then
        match body with
        | some d => d
        | none => emptyStructuredResponse Payment
      else emptyStructuredResponse Payment

/-! ## Inscripciones page (unnamed part_006)

State record mirroring the `useState` hooks of the component. -/

/-- The `useState` hooks of the Inscripciones component that take part in the
fetch/filter/pagination behaviour. -/
structure InscState where
  inscripciones : List Inscripcion
  loading : Bool
  error : Option String
  expandedStates : Nat → Bool
  searchTerm : String
  sendingPayment : Nat → Bool
  sendingCredential : Nat → Bool
  currentPage : Nat
  totalPages : Nat
  totalRecords : Nat

/-- Initial hook values: empty list, `loading = true`, no error, everything
collapsed, empty search, page 1, totals 0. -/
def initialInscState : InscState :=
  { inscripciones := []
    loading := true
    error := none
    expandedStates := fun _ => false
    searchTerm := ""
    sendingPayment := fun _ => false
    sendingCredential := fun _ => false
    currentPage := 1
    totalPages := 0
    totalRecords := 0 }

/-- Body of `getInscripciones` given the settled result of the awaited
fetch: the try branch adopts the page and collapses all cards; the catch
branch sets the error message and clears the list and both totals; the
finally branch clears `loading`.  `setLoading(true)` and `setError(null)` at
the top of the function are part of the caller (`inscStartFetch`). -/
def getInscripcionesWith (st : InscState) : Except Unit (PageResult Inscripcion) → InscState
  | .ok d =>
      { st with
        inscripciones := d.data
        totalRecords := d.total_records
        totalPages := d.total_pages
        expandedStates := fun _ => false
        loading := false }
  | .error _ =>
      { st with
        error := some "No se pudieron cargar las inscripciones."
        inscripciones := []
        totalRecords := 0
        totalPages := 0
        loading := false }

/-- `getInscripciones` for a given raw fetch outcome.  Because
`fetchInscripciones` catches every failure and resolves with the structured
empty response, the try body always runs to completion: the component's
catch branch is unreachable for fetch failures. -/
def getInscripciones (st : InscState) (o : FetchOutcome Inscripcion) : InscState :=
  getInscripcionesWith st (.ok (fetchInscripciones o))

/-- The `setLoading(true); setError(null)` prologue of `getInscripciones`,
run when a page change triggers the effect. -/
def inscStartFetch (st : InscState) : InscState :=
  { st with loading := true, error := none }

/-- Network requests an Inscripciones handler can issue. -/
inductive InscRequest where
  | sendPaymentLink (inscription_id email nombre_establecimiento tipo_establecimiento : String)
  | sendCredential (numero_inscripcion nombre_establecimiento razon_social cuit tipo_establecimiento email : String)
  | logSentItem (item_id item_type sent_type : String)
  | fetchPage (page : Nat)
  deriving Repr, DecidableEq

/-- Whether a request is a page fetch. -/
def InscRequest.isFetchPage : InscRequest → Bool
  | .fetchPage _ => true
  | _ => false

/-- `updateSentStatusLocally` of the Inscripciones page: append the tag to
`sent_statuses` of every row whose `numero_inscripcion` matches. -/
def inscUpdateSentStatusLocally (inscripcionId sentType : String)
    (rows : List Inscripcion) : List Inscripcion :=
  rows.map fun insc =>
    if insc.numero_inscripcion = inscripcionId then
      { insc with sent_statuses := insc.sent_statuses ++ [sentType] }
    else insc

/-- Result of one Inscripciones row action: the rows after the action, the
requests issued in order, the final per-row flag map of the action, and
whether the flag was ever set during the call. -/
structure InscActionResult where
  inscripciones : List Inscripcion
  requests : List InscRequest
  flags : Nat → Bool
  flagDuring : Bool

/-- `handleSendPayment(inscripcion, index)`: precondition check on email,
id and name; flag up; `sendPaymentLink` then `logSentItem`; on full success
`updateSentStatusLocally(id, "cobro")`; catch keeps the rows; finally clears
the flag at `index`. -/
def inscHandleSendPayment (insc : Inscripcion) (index : Nat) (st : InscState)
    (sendOk logOk : Bool) : InscActionResult :=
  if insc.email = "" ∨ insc.numero_inscripcion = "" ∨ insc.nombre_establecimiento = "" then
    { inscripciones := st.inscripciones, requests := [], flags := st.sendingPayment
      flagDuring := false }
  else
    let clear : Nat → Bool := fun i => if i = index then false else st.sendingPayment i
    let req1 : InscRequest := .sendPaymentLink insc.numero_inscripcion insc.email
      insc.nombre_establecimiento insc.tipo_establecimiento
    if sendOk then
      let req2 : InscRequest := .logSentItem insc.numero_inscripcion "inscripcion" "cobro"
      if logOk then
        { inscripciones := inscUpdateSentStatusLocally insc.numero_inscripcion "cobro" st.inscripciones
          requests := [req1, req2], flags := clear, flagDuring := true }
      else
        { inscripciones := st.inscripciones, requests := [req1, req2], flags := clear
          flagDuring := true }
    else
      { inscripciones := st.inscripciones, requests := [req1], flags := clear
        flagDuring := true }

/-- `handleSendCredential(inscripcion, index)`: same shape with the
credential call and the `"credencial"` tag. -/
def inscHandleSendCredential (insc : Inscripcion) (index : Nat) (st : InscState)
    (sendOk logOk : Bool) : InscActionResult :=
  if insc.email = "" then
    { inscripciones := st.inscripciones, requests := [], flags := st.sendingCredential
      flagDuring := false }
  else
    let clear : Nat → Bool := fun i => if i = index then false else st.sendingCredential i
    let req1 : InscRequest := .sendCredential insc.numero_inscripcion
      insc.nombre_establecimiento insc.razon_social insc.cuit insc.tipo_establecimiento insc.email
    if sendOk then
      let req2 : InscRequest := .logSentItem insc.numero_inscripcion "inscripcion" "credencial"
      if logOk then
        { inscripciones := inscUpdateSentStatusLocally insc.numero_inscripcion "credencial" st.inscripciones
          requests := [req1, req2], flags := clear, flagDuring := true }
      else
        { inscripciones := st.inscripciones, requests := [req1, req2], flags := clear
          flagDuring := true }
    else
      { inscripciones := st.inscripciones, requests := [req1], flags := clear
        flagDuring := true }

/-- The row predicate of `filteredInscripciones`: a truthy
`nombre_establecimiento` whose lowercasing contains the lowercased term, or
the same on `razon_social`. -/
def matchesInscripcion (searchTerm : String) (insc : Inscripcion) : Bool :=
  (insc.nombre_establecimiento != ""
      && jsIncludesLower insc.nombre_establecimiento searchTerm)
    || (insc.razon_social != ""
      && jsIncludesLower insc.razon_social searchTerm)

/-- `filteredInscripciones`: the client-side filtered view of the loaded
page. -/
def filteredInscripciones (st : InscState) : List Inscripcion :=
  st.inscripciones.filter (matchesInscripcion st.searchTerm)

/-- `onChange` of the search input: `setSearchTerm(e.target.value)`. -/
def inscSetSearchTerm (st : InscState) (t : String) : InscState :=
  { st with searchTerm := t }

/-- `disabled=(currentPage === 1 || loading)` of the Previous button. -/
def inscPrevDisabled (st : InscState) : Bool :=
  st.currentPage == 1 || st.loading

/-- `disabled=(currentPage === totalPages || loading)` of the Next button. -/
def inscNextDisabled (st : InscState) : Bool :=
  st.currentPage == st.totalPages || st.loading

/-- The pagination controls exist in the DOM only when the component does
not early-return (initial full-screen loading, error screen) and the
filtered list is non-empty. -/
def inscControlsRendered (st : InscState) : Bool :=
  !(st.loading && st.inscripciones.isEmpty)
    && st.error.isNone
    && !(filteredInscripciones st).isEmpty

/-- `setCurrentPage(prev => prev - 1)`: the page the Previous click
requests. -/
def inscPrevTarget (st : InscState) : Nat :=
  st.currentPage - 1

/-- `setCurrentPage(prev => prev + 1)`: the page the Next click requests. -/
def inscNextTarget (st : InscState) : Nat :=
  st.currentPage + 1

/-- Reachable states of the Inscripciones fetch/pagination machine against a
fixed server `srv` (the page a successful decode of page `p` returns).
A resolving fetch either succeeded (body = `srv` at the current page) or hit
any failure, in which case `fetchInscripciones` resolves with the structured
empty response; `fetchThrew` is the component-level catch branch.  Clicks are
possible only on rendered, enabled controls. -/
inductive InscReachable (srv : Nat → PageResult Inscripcion) : InscState → Prop where
  | init : InscReachable srv initialInscState
  | fetchResolve {s : InscState} (o : FetchOutcome Inscripcion) :
      InscReachable srv s → s.loading = true →
      (∀ d, o = .response true (some d) → d = srv s.currentPage) →
      InscReachable srv (getInscripciones s o)
  | fetchThrew {s : InscState} :
      InscReachable srv s → s.loading = true →
      InscReachable srv (getInscripcionesWith s (.error ()))
  | clickPrev {s : InscState} :
      InscReachable srv s → inscControlsRendered s = true → inscPrevDisabled s = false →
      InscReachable srv (inscStartFetch { s with currentPage := inscPrevTarget s })
  | clickNext {s : InscState} :
      InscReachable srv s → inscControlsRendered s = true → inscNextDisabled s = false →
      InscReachable srv (inscStartFetch { s with currentPage := inscNextTarget s })
  | search {s : InscState} (t : String) :
      InscReachable srv s → InscReachable srv (inscSetSearchTerm s t)
  | toggleExpand {s : InscState} (i : Nat) :
      InscReachable srv s →
      InscReachable srv
        { s with expandedStates := fun j => if j = i then !s.expandedStates j else s.expandedStates j }

/-! ## Reses page (caza_2026_v2_frontend/src/pages/Reses.js) -/

/-- Network requests a Reses handler can issue. -/
inductive ResRequest where
  | sendResesPayment (res_id email amount : String)
  | sendResesGuia (res_id email docx_id : String)
  | logResesAction (res_id action : String) (amount : Option String) (isPaid : Option Bool)
  | fetchPage (page : Nat)
  deriving Repr, DecidableEq

/-- Whether a Reses request is a page fetch. -/
def ResRequest.isFetchPage : ResRequest → Bool
  | .fetchPage _ => true
  | _ => false

/-- `updateSentStatusLocally` of the Reses page:
`sent_statuses` of the matching row becomes the spread of a `Set` over the
old statuses plus the tag. -/
def resesUpdateSentStatusLocally (resId ty : String) (rows : List Res) : List Res :=
  rows.map fun r =>
    if r.ID = resId then
      { r with sent_statuses := setDedup (r.sent_statuses ++ [ty]) }
    else r

/-- `updateHistoryLocally`: prepend a `(timestamp, details)` entry to the
matching row; `nowIso` is `new Date().toISOString()`. -/
def resesUpdateHistoryLocally (resId action nowIso : String) (rows : List Res) : List Res :=
  rows.map fun r =>
    if r.ID = resId then
      { r with history := { timestamp := nowIso, details := action } :: r.history }
    else r

/-- Result of one Reses row action. -/
structure ResActionResult where
  reses : List Res
  requests : List ResRequest
  flags : String → Bool
  flagDuring : Bool
  /-- whether `window.open` on the primary document was reached -/
  opened : Bool

/-- `handleSendPayment(res)` of the Reses page: needs an entered amount and
an email; flag up keyed by `res.ID`; one `sendResesPayment` call; success
appends the `"cobro"` tag and prepends a history line; catch keeps the rows;
finally clears the flag. -/
def resesHandleSendPayment (res : Res) (amounts : String → String)
    (sending : String → Bool) (rows : List Res) (sendOk : Bool) (nowIso : String) :
    ResActionResult :=
  let amount := amounts res.ID
  if amount = "" then
    { reses := rows, requests := [], flags := sending, flagDuring := false, opened := false }
  else if res.Email = "" then
    { reses := rows, requests := [], flags := sending, flagDuring := false, opened := false }
  else
    let clear : String → Bool := fun i => if i = res.ID then false else sending i
    let req : ResRequest := .sendResesPayment res.ID res.Email amount
    if sendOk then
      { reses := resesUpdateHistoryLocally res.ID
          ("Se envió cobro por $" ++ amount ++ " a " ++ res.Email) nowIso
          (resesUpdateSentStatusLocally res.ID "cobro" rows)
        requests := [req], flags := clear, flagDuring := true, opened := false }
    else
      { reses := rows, requests := [req], flags := clear, flagDuring := true, opened := false }

/-- `handleTogglePaid(res, paidStatus)`: one `logResesAction` call carrying
`is_paid` (and the entered amount when present); success flips `is_paid`
locally and prepends a history line; catch keeps the rows.  No in-flight
flag exists for this action. -/
def resesHandleTogglePaid (res : Res) (paidStatus : Bool) (amounts : String → String)
    (rows : List Res) (logOk : Bool) (nowIso : String) : List Res × List ResRequest :=
  let amount := amounts res.ID
  let action := "Estado de pago cambiado a: " ++ (if paidStatus then "SÍ" else "NO")
  let req : ResRequest := .logResesAction res.ID action
    (if amount = "" then none else some amount) (some paidStatus)
  if logOk then
    (resesUpdateHistoryLocally res.ID action nowIso
      ((rows.map fun r => if r.ID = res.ID then { r with is_paid := some paidStatus } else r)),
     [req])
  else
    (rows, [req])

/-- `handleSaveAmount(res)`: needs an entered amount; one `logResesAction`
call; success stores the amount on the row and prepends a history line;
catch keeps the rows. -/
def resesHandleSaveAmount (res : Res) (amounts : String → String)
    (rows : List Res) (logOk : Bool) (nowIso : String) : List Res × List ResRequest :=
  let amount := amounts res.ID
  if amount = "" then
    (rows, [])
  else
    let action := "Monto de cobro guardado: $" ++ amount
    let req : ResRequest := .logResesAction res.ID action (some amount) none
    if logOk then
      (resesUpdateHistoryLocally res.ID action nowIso
        ((rows.map fun r => if r.ID = res.ID then { r with permanent_amount := some amount } else r)),
       [req])
    else
      (rows, [req])

/-- `handleEditDocx(res)`: issues the best-effort `logResesAction` call and
only then, still inside the `try`, calls `window.open(res.docx_link)` and
updates the local history.  When the logging call rejects, the catch runs
and `window.open` is never reached. -/
def resesHandleEditDocx (res : Res) (amounts : String → String)
    (rows : List Res) (logOk : Bool) (nowIso : String) : ResActionResult :=
  let amount := amounts res.ID
  let action := "Se abrió el archivo Docx para edición"
  let req : ResRequest := .logResesAction res.ID action
    (if amount = "" then none else some amount) none
  if logOk then
    { reses := resesUpdateHistoryLocally res.ID action nowIso rows
      requests := [req], flags := fun _ => false, flagDuring := false, opened := true }
  else
    { reses := rows, requests := [req], flags := fun _ => false, flagDuring := false
      opened := false }

/-- The row predicate of `filteredReses`: case-insensitive substring match
on name, DNI or species, each guarded by truthiness. -/
def matchesRes (searchTerm : String) (r : Res) : Bool :=
  (r.nombreApellido != "" && jsIncludesLower r.nombreApellido searchTerm)
    || (r.dni != "" && jsIncludesLower r.dni searchTerm)
    || (r.especie != "" && jsIncludesLower r.especie searchTerm)

/-- `filteredReses`: the client-side filtered view of the loaded Reses
page. -/
def filteredReses (searchTerm : String) (rows : List Res) : List Res :=
  rows.filter (matchesRes searchTerm)

/-! ## PagosRealizados page (unnamed part_002): pagination controls -/

/-- `disabled=(paymentsPage === 1)` of the Previous button. -/
def paymentsPrevDisabled (p : Nat) : Bool :=
  p == 1

/-- `disabled=(paymentsPage === paymentsTotalPages)` of the Next button. -/
def paymentsNextDisabled (p totalPages : Nat) : Bool :=
  p == totalPages

/-- `setPaymentsPage(p => Math.max(p - 1, 1))`. -/
def paymentsPrevTarget (p : Nat) : Nat :=
  max (p - 1) 1

/-- `setPaymentsPage(p => Math.min(p + 1, paymentsTotalPages))`. -/
def paymentsNextTarget (p totalPages : Nat) : Nat :=
  min (p + 1) totalPages

/-- State of the PagosRealizados payments table. -/
structure PaymentsState where
  payments : List Payment
  loadingPayments : Bool
  errorPayments : Option String
  paymentsPage : Nat
  paymentsTotalPages : Nat

/-- Initial hook values of the payments table (`paymentsTotalPages` starts
at 1). -/
def initialPaymentsState : PaymentsState :=
  { payments := []
    loadingPayments := true
    errorPayments := none
    paymentsPage := 1
    paymentsTotalPages := 1 }

/-- Body of `getPayments` on the settled fetch: the try branch adopts data
and total pages; the catch branch sets the error message; finally clears
the loading flag. -/
def getPaymentsWith (st : PaymentsState) : Except Unit (PageResult Payment) → PaymentsState
  | .ok d =>
      { st with
        payments := d.data
        paymentsTotalPages := d.total_pages
        loadingPayments := false }
  | .error _ =>
      { st with
        errorPayments := some "Error al cargar los pagos."
        loadingPayments := false }

/-- `getPayments` for a raw fetch outcome (`fetchPayments` never rejects). -/
def getPayments (st : PaymentsState) (o : FetchOutcome Payment) : PaymentsState :=
  getPaymentsWith st (.ok (fetchPayments o))

/-- `renderPaymentsTable` early-returns on loading and on error, and the
pagination controls only render under the non-empty branch of
`payments.length === 0`. -/
def paymentsControlsRendered (st : PaymentsState) : Bool :=
  !st.loadingPayments && st.errorPayments.isNone && !st.payments.isEmpty

/-- Reachable states of the payments table against a fixed server `srv`,
with the same fetch conventions as `InscReachable`. -/
inductive PaymentsReachable (srv : Nat → PageResult Payment) : PaymentsState → Prop where
  | init : PaymentsReachable srv initialPaymentsState
  | fetchResolve {s : PaymentsState} (o : FetchOutcome Payment) :
      PaymentsReachable srv s → s.loadingPayments = true →
      (∀ d, o = .response true (some d) → d = srv s.paymentsPage) →
      PaymentsReachable srv (getPayments s o)
  | fetchThrew {s : PaymentsState} :
      PaymentsReachable srv s → s.loadingPayments = true →
      PaymentsReachable srv (getPaymentsWith s (.error ()))
  | clickPrev {s : PaymentsState} :
      PaymentsReachable srv s → paymentsControlsRendered s = true →
      paymentsPrevDisabled s.paymentsPage = false →
      PaymentsReachable srv
        { s with paymentsPage := paymentsPrevTarget s.paymentsPage, loadingPayments := true }
  | clickNext {s : PaymentsState} :
      PaymentsReachable srv s → paymentsControlsRendered s = true →
      paymentsNextDisabled s.paymentsPage s.paymentsTotalPages = false →
      PaymentsReachable srv
        { s with
          paymentsPage := paymentsNextTarget s.paymentsPage s.paymentsTotalPages
          loadingPayments := true }

/-! ## AuthContext (session gate) -/

/-- `SESSION_DURATION = 2 * 60 * 60 * 1000` milliseconds. -/
def SESSION_DURATION : Int := 2 * 60 * 60 * 1000

/-- Resolution of the mount-time session check. -/
inductive AuthResolution where
  | authenticated (user : String)
  | anonymous
  deriving Repr, DecidableEq

/-- The mount effect of `AuthProvider`: read the persisted user and login
time; when both are present and the session is older than
`SESSION_DURATION`, `logout()` clears the persisted state and the gate
stays anonymous; when within the window the user is adopted; when either
item is absent nothing happens and the gate stays anonymous.  Returns the
resolution and whether the persisted state was cleared. -/
def checkSession (storedUser : Option String) (storedLoginTime : Option Int)
    (now : Int) : AuthResolution × Bool :=
  match storedUser, storedLoginTime with
  | some u, some t =>
      if now - t > SESSION_DURATION then (.anonymous, true)
      else (.authenticated u, false)
  | some _, none => (.anonymous, false)
  | none, _ => (.anonymous, false)

/-! ## Helper lemmas -/

theorem hasSub_nil (s : List Char) : hasSub [] s = true := by
  cases s with
  | nil => rfl
  | cons c rest => simp [hasSub, isPrefOf]

theorem mem_setDedupGo (l : List String) :
    ∀ seen x, x ∈ setDedupGo seen l ↔ x ∈ l ∧ x ∉ seen := by
  induction l with
  | nil => intro seen x; simp [setDedupGo]
  | cons y ys ih =>
      intro seen x
      by_cases hy : y ∈ seen
      · rw [setDedupGo, if_pos hy, ih seen x]
        constructor
        · rintro ⟨hx, hns⟩; exact ⟨List.mem_cons_of_mem _ hx, hns⟩
        · rintro ⟨hx, hns⟩
          rcases List.mem_cons.mp hx with rfl | hx
          · exact absurd hy hns
          · exact ⟨hx, hns⟩
      · rw [setDedupGo, if_neg hy]
        constructor
        · intro hmem
          rcases List.mem_cons.mp hmem with rfl | hmem
          · exact ⟨List.mem_cons_self x ys, hy⟩
          · obtain ⟨hx, hns⟩ := (ih (y :: seen) x).mp hmem
            refine ⟨List.mem_cons_of_mem _ hx, ?_⟩
            intro hseen
            exact hns (List.mem_cons_of_mem _ hseen)
        · rintro ⟨hx, hns⟩
          rcases List.mem_cons.mp hx with rfl | hx
          · exact List.mem_cons_self x _
          · by_cases hxy : x = y
            · subst hxy; exact List.mem_cons_self x _
            · refine List.mem_cons_of_mem _ ((ih (y :: seen) x).mpr ⟨hx, ?_⟩)
              intro hmem
              rcases List.mem_cons.mp hmem with h | h
              · exact hxy h
              · exact hns h

theorem nodup_setDedupGo (l : List String) : ∀ seen, (setDedupGo seen l).Nodup := by
  induction l with
  | nil => intro seen; simp [setDedupGo]
  | cons y ys ih =>
      intro seen
      by_cases hy : y ∈ seen
      · rw [setDedupGo, if_pos hy]; exact ih seen
      · rw [setDedupGo, if_neg hy]
        refine List.nodup_cons.mpr ⟨?_, ih (y :: seen)⟩
        intro hmem
        exact ((mem_setDedupGo ys (y :: seen) y).mp hmem).2 (List.mem_cons_self y seen)

theorem setDedupGo_append_of_mem (l : List String) :
    ∀ seen t, (t ∈ l ∨ t ∈ seen) → setDedupGo seen (l ++ [t]) = setDedupGo seen l := by
  induction l with
  | nil =>
      intro seen t ht
      rcases ht with ht | ht
      · exact absurd ht (List.not_mem_nil t)
      · simp [setDedupGo, ht]
  | cons y ys ih =>
      intro seen t ht
      have hstep : (y :: ys) ++ [t] = y :: (ys ++ [t]) := rfl
      rw [hstep]
      by_cases hy : y ∈ seen
      · rw [setDedupGo, if_pos hy, setDedupGo, if_pos hy]
        refine ih seen t ?_
        rcases ht with ht | ht
        · rcases List.mem_cons.mp ht with rfl | ht
          · exact Or.inr hy
          · exact Or.inl ht
        · exact Or.inr ht
      · rw [setDedupGo, if_neg hy, setDedupGo, if_neg hy]
        congr 1
        refine ih (y :: seen) t ?_
        rcases ht with ht | ht
        · rcases List.mem_cons.mp ht with rfl | ht
          · exact Or.inr (List.mem_cons_self t seen)
          · exact Or.inl ht
        · exact Or.inr (List.mem_cons_of_mem _ ht)

theorem setDedupGo_eq_self (l : List String) :
    ∀ seen, l.Nodup → (∀ x ∈ l, x ∉ seen) → setDedupGo seen l = l := by
  induction l with
  | nil => intro seen _ _; rfl
  | cons y ys ih =>
      intro seen hnd hdisj
      have hy : y ∉ seen := hdisj y (List.mem_cons_self y ys)
      simp only [setDedupGo, if_neg hy]
      congr 1
      refine ih (y :: seen) (List.Nodup.of_cons hnd) ?_
      intro x hx
      simp only [List.mem_cons, not_or]
      refine ⟨?_, hdisj x (List.mem_cons_of_mem _ hx)⟩
      rintro rfl
      exact (List.nodup_cons.mp hnd).1 hx

theorem mem_setDedup (l : List String) (x : String) : x ∈ setDedup l ↔ x ∈ l := by
  simpa using mem_setDedupGo l [] x

theorem nodup_setDedup (l : List String) : (setDedup l).Nodup :=
  nodup_setDedupGo l []

theorem setDedup_append_of_mem (l : List String) (t : String) (ht : t ∈ l) :
    setDedup (l ++ [t]) = setDedup l :=
  setDedupGo_append_of_mem l [] t (Or.inl ht)

theorem setDedup_of_nodup (l : List String) (h : l.Nodup) : setDedup l = l :=
  setDedupGo_eq_self l [] h (by simp)

theorem setDedup_append_stable (l : List String) (t : String) :
    setDedup (setDedup (l ++ [t]) ++ [t]) = setDedup (l ++ [t]) := by
  have ht : t ∈ setDedup (l ++ [t]) := (mem_setDedup _ t).mpr (by simp)
  rw [setDedup_append_of_mem _ t ht, setDedup_of_nodup _ (nodup_setDedup _)]

theorem forall₂_map_self {α : Type} (P : α → α → Prop) (f : α → α) (l : List α)
    (h : ∀ a ∈ l, P a (f a)) : List.Forall₂ P l (l.map f) := by
  induction l with
  | nil => simp
  | cons a as ih =>
      simp only [List.map_cons, List.forall₂_cons]
      exact ⟨h a (List.mem_cons_self a as), ih fun b hb => h b (List.mem_cons_of_mem _ hb)⟩

theorem filter_ne_nil_of_ne_nil {α : Type} (p : α → Bool) (l : List α)
    (h : l.filter p ≠ []) : l ≠ [] := by
  intro hl
  subst hl
  simp at h

/-! ## Concrete fixtures for witnesses and counterexamples -/

/-- A fully populated registration row. -/
def cInsc : Inscripcion :=
  { numero_inscripcion := "I-1"
    email := "a@b.c"
    nombre_establecimiento := "Estancia"
    razon_social := "RS SA"
    cuit := "20-1"
    tipo_establecimiento := "coto"
    sent_statuses := [] }

/-- A second registration row with a different identifier. -/
def cInsc2 : Inscripcion :=
  { numero_inscripcion := "I-2"
    email := "d@e.f"
    nombre_establecimiento := "Campo"
    razon_social := "Otra SA"
    cuit := "20-2"
    tipo_establecimiento := "criadero"
    sent_statuses := ["pdf"] }

/-- A registration row whose searchable fields are both empty. -/
def cInscBlank : Inscripcion :=
  { numero_inscripcion := "I-3"
    email := "x@y.z"
    nombre_establecimiento := ""
    razon_social := ""
    cuit := ""
    tipo_establecimiento := ""
    sent_statuses := [] }

/-- A populated livestock-transport row with a document link. -/
def cRes : Res :=
  { ID := "R-1"
    Email := "r@b.c"
    nombreApellido := "Juan Perez"
    dni := "123"
    especie := "Ciervo"
    docx_id := "D-1"
    docx_link := "http://docs/r1"
    is_paid := some false
    permanent_amount := none
    sent_statuses := []
    history := [] }

/-- An Inscripciones state holding one successfully loaded page. -/
def cInscLoadedState : InscState :=
  { initialInscState with
    inscripciones := [cInsc, cInsc2]
    loading := false
    totalRecords := 2
    totalPages := 1 }

/-- An Inscripciones state whose only loaded row has empty searchable
fields. -/
def cInscBlankState : InscState :=
  { initialInscState with
    inscripciones := [cInscBlank]
    loading := false
    totalRecords := 1
    totalPages := 1 }

/-- An empty entered-amounts map. -/
def cAmounts : String → String := fun _ => ""

/-! ## Claim C1 (corrected) -/

/-- C1 counterexample: with a loaded non-empty page, a transport failure of
the next fetch replaces the displayed items with the empty list and resets
both totals to 0, and no error message is set — the claim that previously
displayed data remains unchanged is false. -/
theorem c1_counterexample :
    cInscLoadedState.inscripciones ≠ []
    ∧ (getInscripciones cInscLoadedState FetchOutcome.transportError).inscripciones = []
    ∧ (getInscripciones cInscLoadedState FetchOutcome.transportError).totalRecords = 0
    ∧ (getInscripciones cInscLoadedState FetchOutcome.transportError).totalPages = 0
    ∧ (getInscripciones cInscLoadedState FetchOutcome.transportError).error = none := by
  refine ⟨by decide, rfl, rfl, rfl, rfl⟩

/-- C1 amended: on every failing fetch outcome the Inscripciones view adopts
the structured empty page: items become `[]`, both totals become 0, and the
error field is left as it was (no page-level error message is produced by a
fetch failure); the resulting state is exactly the state of a successful
fetch of an empty page. -/
theorem c1_fetch_failure_replaces_data_with_empty (st : InscState)
    (o : FetchOutcome Inscripcion) (h : o.isFailure = true) :
    (getInscripciones st o).inscripciones = []
    ∧ (getInscripciones st o).totalRecords = 0
    ∧ (getInscripciones st o).totalPages = 0
    ∧ (getInscripciones st o).error = st.error
    ∧ getInscripciones st o
        = getInscripcionesWith st (.ok (emptyStructuredResponse Inscripcion)) := by
  have he : fetchInscripciones o = emptyStructuredResponse Inscripcion := by
    cases o with
    | transportError => rfl
    | response ok body =>
        cases ok with
        | false => simp [fetchInscripciones]
        | true =>
            cases body with
            | none => simp [fetchInscripciones]
            | some d => simp [FetchOutcome.isFailure] at h
  rw [getInscripciones, he]
  exact ⟨rfl, rfl, rfl, rfl, rfl⟩

/-- C1 witness: the amended theorem applied at a concrete loaded state and
a transport error. -/
theorem c1_witness :
    (FetchOutcome.transportError : FetchOutcome Inscripcion).isFailure = true
    ∧ (getInscripciones cInscLoadedState FetchOutcome.transportError).inscripciones = [] :=
  ⟨rfl, (c1_fetch_failure_replaces_data_with_empty cInscLoadedState
    FetchOutcome.transportError rfl).1⟩

/-! ## Claim C2 (corrected) -/

/-- C2 counterexample: the paged fetchers return no tagged failure — a
transport error produces the very same value as a successful fetch that
decodes an empty page, so the caller cannot distinguish the two. -/
theorem c2_counterexample :
    fetchInscripciones FetchOutcome.transportError
        = fetchInscripciones (.response true (some (emptyStructuredResponse Inscripcion)))
    ∧ fetchInscripciones FetchOutcome.transportError = emptyStructuredResponse Inscripcion
    ∧ fetchPayments FetchOutcome.transportError
        = fetchPayments (.response true (some (emptyStructuredResponse Payment))) :=
  ⟨rfl, rfl, rfl⟩

/-- C2 amended: on transport failure, non-2xx status or undecodable body,
`fetchInscripciones` and `fetchPayments` catch the error and resolve with
the structured empty page; a successful decode is returned as-is. -/
theorem c2_fetchers_swallow_failures (oI : FetchOutcome Inscripcion)
    (oP : FetchOutcome Payment) (dI : PageResult Inscripcion) (dP : PageResult Payment)
    (hI : oI.isFailure = true) (hP : oP.isFailure = true) :
    fetchInscripciones oI = emptyStructuredResponse Inscripcion
    ∧ fetchPayments oP = emptyStructuredResponse Payment
    ∧ fetchInscripciones (.response true (some dI)) = dI
    ∧ fetchPayments (.response true (some dP)) = dP := by
  refine ⟨?_, ?_, rfl, rfl⟩
  · cases oI with
    | transportError => rfl
    | response ok body =>
        cases ok with
        | false => simp [fetchInscripciones]
        | true =>
            cases body with
            | none => simp [fetchInscripciones]
            | some d => simp [FetchOutcome.isFailure] at hI
  · cases oP with
    | transportError => rfl
    | response ok body =>
        cases ok with
        | false => simp [fetchPayments]
        | true =>
            cases body with
            | none => simp [fetchPayments]
            | some d => simp [FetchOutcome.isFailure] at hP

/-- C2 witness: the amended theorem at concrete failing outcomes. -/
theorem c2_witness :
    fetchInscripciones (.response false none) = emptyStructuredResponse Inscripcion
    ∧ fetchPayments FetchOutcome.transportError = emptyStructuredResponse Payment :=
  ⟨(c2_fetchers_swallow_failures (.response false none) FetchOutcome.transportError
      (emptyStructuredResponse Inscripcion) (emptyStructuredResponse Payment) rfl rfl).1,
   (c2_fetchers_swallow_failures (.response false none) FetchOutcome.transportError
      (emptyStructuredResponse Inscripcion) (emptyStructuredResponse Payment) rfl rfl).2.1⟩

/-! ## Claim C8 (confirmed) -/

/-- C8: the mount-time session check authenticates a persisted session that
is at most `SESSION_DURATION` old, clears the persisted state and stays
anonymous when it is older (in particular at
`loginTimestamp = now - SESSION_DURATION - 1`), and stays anonymous without
clearing anything when nothing is persisted. -/
theorem c8_session_gate_resolution (u : String) (t now : Int) :
    (now - t ≤ SESSION_DURATION →
      checkSession (some u) (some t) now = (.authenticated u, false))
    ∧ (now - t > SESSION_DURATION →
      checkSession (some u) (some t) now = (.anonymous, true))
    ∧ checkSession (some u) (some (now - SESSION_DURATION - 1)) now = (.anonymous, true)
    ∧ (∀ ot, checkSession none ot now = (.anonymous, false)) := by
  refine ⟨?_, ?_, ?_, ?_⟩
  · intro h
    simp only [checkSession]
    rw [if_neg (by omega)]
  · intro h
    simp only [checkSession]
    rw [if_pos h]
  · simp only [checkSession]
    rw [if_pos (by omega)]
  · intro ot
    rfl

/-- C8 witness: the theorem at concrete instants on both sides of the
expiry boundary (`SESSION_DURATION = 7200000` ms). -/
theorem c8_witness :
    checkSession (some "Karen") (some 0) 7200000 = (.authenticated "Karen", false)
    ∧ checkSession (some "Karen") (some 0) 7200001 = (.anonymous, true) :=
  ⟨(c8_session_gate_resolution "Karen" 0 7200000).1 (by decide),
   (c8_session_gate_resolution "Karen" 0 7200001).2.1 (by decide)⟩

/-! ## Claim C9 (code_bug) -/

/-- C9: evaluation of `handleEditDocx` at a row with a document link.  When
the best-effort `logResesAction` call fails, the catch is entered before
`window.open` and the document is never opened — the primary navigation is
blocked by the logging failure, contradicting the claim; when logging
succeeds the document opens. -/
theorem c9_editdocx_blocked_by_log_failure :
    cRes.docx_link ≠ ""
    ∧ (resesHandleEditDocx cRes cAmounts [cRes] false "2026-01-01T00:00:00.000Z").opened = false
    ∧ (resesHandleEditDocx cRes cAmounts [cRes] false "2026-01-01T00:00:00.000Z").reses = [cRes]
    ∧ (resesHandleEditDocx cRes cAmounts [cRes] true "2026-01-01T00:00:00.000Z").opened = true := by
  refine ⟨by decide, rfl, rfl, rfl⟩

/-! ## Claim C10 (confirmed) -/

/-- C10: the Reses local sent-status update is idempotent and deduplicating:
applying it twice equals applying it once; the updated row's statuses are
duplicate-free, contain the new tag, and keep every previously present tag;
rows with a different identifier are untouched. -/
theorem c10_sent_status_update_idempotent_dedup (rows : List Res) (resId ty : String) :
    resesUpdateSentStatusLocally resId ty (resesUpdateSentStatusLocally resId ty rows)
      = resesUpdateSentStatusLocally resId ty rows
    ∧ List.Forall₂ (fun old new =>
        (old.ID = resId → new.sent_statuses.Nodup ∧ ty ∈ new.sent_statuses
          ∧ ∀ x ∈ old.sent_statuses, x ∈ new.sent_statuses)
        ∧ (old.ID ≠ resId → new = old))
      rows (resesUpdateSentStatusLocally resId ty rows) := by
  constructor
  · unfold resesUpdateSentStatusLocally
    rw [List.map_map]
    apply List.map_congr_left
    intro r _
    by_cases h : r.ID = resId
    · simp only [Function.comp_apply, if_pos h]
      rw [setDedup_append_stable]
    · simp only [Function.comp_apply, if_neg h]
  · unfold resesUpdateSentStatusLocally
    apply forall₂_map_self
    intro r _
    constructor
    · intro h
      rw [if_pos h]
      refine ⟨nodup_setDedup _, (mem_setDedup _ _).mpr (by simp), ?_⟩
      intro x hx
      exact (mem_setDedup _ _).mpr (by simp [hx])
    · intro h
      rw [if_neg h]

/-- C10 witness: the theorem evaluated on a one-row collection whose row
already carries a duplicate of the tag. -/
theorem c10_witness :
    resesUpdateSentStatusLocally "R-1" "cobro"
        (resesUpdateSentStatusLocally "R-1" "cobro" [cRes])
      = resesUpdateSentStatusLocally "R-1" "cobro" [cRes] :=
  (c10_sent_status_update_idempotent_dedup [cRes] "R-1" "cobro").1

/-! ## Claim C3 (confirmed) -/

/-- C3: on every failing backend outcome of a row action — payment-link send
failing, audit-log call failing after a successful send, credential send or
its log failing, paid-toggle log failing, save-amount log failing — the
local row collection is returned unchanged: no sent-status, paid-flag,
amount or history mutation happens on a failure path. -/
theorem c3_failed_action_no_local_mutation :
    (∀ insc index st logOk,
      (inscHandleSendPayment insc index st false logOk).inscripciones = st.inscripciones)
    ∧ (∀ insc index st,
      (inscHandleSendPayment insc index st true false).inscripciones = st.inscripciones)
    ∧ (∀ insc index st logOk,
      (inscHandleSendCredential insc index st false logOk).inscripciones = st.inscripciones)
    ∧ (∀ insc index st,
      (inscHandleSendCredential insc index st true false).inscripciones = st.inscripciones)
    ∧ (∀ res amounts sending rows nowIso,
      (resesHandleSendPayment res amounts sending rows false nowIso).reses = rows)
    ∧ (∀ res paid amounts rows nowIso,
      (resesHandleTogglePaid res paid amounts rows false nowIso).1 = rows)
    ∧ (∀ res amounts rows nowIso,
      (resesHandleSaveAmount res amounts rows false nowIso).1 = rows) := by
  refine ⟨?_, ?_, ?_, ?_, ?_, ?_, ?_⟩
  · intro insc index st logOk
    unfold inscHandleSendPayment
    split <;> rfl
  · intro insc index st
    unfold inscHandleSendPayment
    split <;> rfl
  · intro insc index st logOk
    unfold inscHandleSendCredential
    split <;> rfl
  · intro insc index st
    unfold inscHandleSendCredential
    split <;> rfl
  · intro res amounts sending rows nowIso
    simp only [resesHandleSendPayment]
    split_ifs <;> first | rfl | (exfalso; assumption)
  · intro res paid amounts rows nowIso
    rfl
  · intro res amounts rows nowIso
    simp only [resesHandleSaveAmount]
    split_ifs <;> first | rfl | (exfalso; assumption)

/-! ## Claim C4 (confirmed) -/

/-- C4: a fully successful payment-link send appends the `"cobro"` tag to
every loaded row carrying the target identifier, leaves every row with a
different identifier exactly as it was, and issues no page fetch (the update
is local only); likewise for the Reses-side local update and the Reses
payment handler. -/
theorem c4_send_payment_success_updates_target_row_only
    (insc : Inscripcion) (index : Nat) (st : InscState)
    (h1 : insc.email ≠ "") (h2 : insc.numero_inscripcion ≠ "")
    (h3 : insc.nombre_establecimiento ≠ "") :
    List.Forall₂ (fun old new =>
        (old.numero_inscripcion = insc.numero_inscripcion →
          "cobro" ∈ new.sent_statuses
            ∧ new.sent_statuses = old.sent_statuses ++ ["cobro"])
        ∧ (old.numero_inscripcion ≠ insc.numero_inscripcion → new = old))
      st.inscripciones (inscHandleSendPayment insc index st true true).inscripciones
    ∧ (∀ q ∈ (inscHandleSendPayment insc index st true true).requests,
        q.isFetchPage = false)
    ∧ (∀ rows resId, List.Forall₂ (fun old new =>
        (old.ID = resId → "cobro" ∈ new.sent_statuses)
        ∧ (old.ID ≠ resId → new = old))
      rows (resesUpdateSentStatusLocally resId "cobro" rows))
    ∧ (∀ res amounts sending rows sOk nowIso,
        ∀ q ∈ (resesHandleSendPayment res amounts sending rows sOk nowIso).requests,
        q.isFetchPage = false) := by
  have hcond : ¬(insc.email = "" ∨ insc.numero_inscripcion = ""
      ∨ insc.nombre_establecimiento = "") := by
    simp [h1, h2, h3]
  refine ⟨?_, ?_, ?_, ?_⟩
  · rw [inscHandleSendPayment, if_neg hcond]
    simp only [if_pos trivial]
    unfold inscUpdateSentStatusLocally
    apply forall₂_map_self
    intro r _
    constructor
    · intro h
      rw [if_pos h]
      exact ⟨by simp, rfl⟩
    · intro h
      rw [if_neg h]
  · rw [inscHandleSendPayment, if_neg hcond]
    intro q hq
    simp only [if_pos trivial, List.mem_cons, List.not_mem_nil, or_false] at hq
    rcases hq with rfl | rfl <;> rfl
  · intro rows resId
    unfold resesUpdateSentStatusLocally
    apply forall₂_map_self
    intro r _
    constructor
    · intro h
      rw [if_pos h]
      exact (mem_setDedup _ _).mpr (by simp)
    · intro h
      rw [if_neg h]
  · intro res amounts sending rows sOk nowIso q hq
    simp only [resesHandleSendPayment] at hq
    split_ifs at hq
    all_goals
      first
      | exact absurd hq (List.not_mem_nil q)
      | (simp only [List.mem_cons, List.not_mem_nil, or_false] at hq; subst hq; rfl)

/-- C4 witness: the theorem at a concrete loaded two-row page, acting on
the first row. -/
theorem c4_witness :
    List.Forall₂ (fun old new =>
        (old.numero_inscripcion = cInsc.numero_inscripcion →
          "cobro" ∈ new.sent_statuses
            ∧ new.sent_statuses = old.sent_statuses ++ ["cobro"])
        ∧ (old.numero_inscripcion ≠ cInsc.numero_inscripcion → new = old))
      cInscLoadedState.inscripciones
      (inscHandleSendPayment cInsc 0 cInscLoadedState true true).inscripciones :=
  (c4_send_payment_success_updates_target_row_only cInsc 0 cInscLoadedState
    (by decide) (by decide) (by decide)).1

/-! ## Claim C5 (corrected) -/

/-- C5 counterexample: a valid row passing the precondition check, with both
backend calls succeeding, makes the Inscripciones payment dispatcher issue
two network requests (`send-payment-link` then `log-sent-item`), not exactly
one. -/
theorem c5_counterexample :
    (inscHandleSendPayment cInsc 0 cInscLoadedState true true).flagDuring = true
    ∧ (inscHandleSendPayment cInsc 0 cInscLoadedState true true).requests.length = 2
    ∧ (inscHandleSendPayment cInsc 0 cInscLoadedState true true).requests.length ≠ 1 := by
  refine ⟨rfl, rfl, by decide⟩

/-- C5 amended: when the precondition check passes, the dispatcher sets the
per-action in-flight flag, and the flag is false again at the row's key on
every outcome; the Inscripciones payment handler issues its primary
`send-payment-link` request and, when that succeeds, one follow-up audit-log
request (so one request on the failure path, two on the success path); the
Reses payment handler issues exactly one request on every outcome. -/
theorem c5_flag_cleared_and_request_trace (insc : Inscripcion) (index : Nat)
    (st : InscState) (sendOk logOk : Bool)
    (h : ¬(insc.email = "" ∨ insc.numero_inscripcion = ""
      ∨ insc.nombre_establecimiento = "")) :
    (inscHandleSendPayment insc index st sendOk logOk).flagDuring = true
    ∧ (inscHandleSendPayment insc index st sendOk logOk).flags index = false
    ∧ (inscHandleSendPayment insc index st sendOk logOk).requests
        = (if sendOk then
            [InscRequest.sendPaymentLink insc.numero_inscripcion insc.email
              insc.nombre_establecimiento insc.tipo_establecimiento,
             InscRequest.logSentItem insc.numero_inscripcion "inscripcion" "cobro"]
          else
            [InscRequest.sendPaymentLink insc.numero_inscripcion insc.email
              insc.nombre_establecimiento insc.tipo_establecimiento])
    ∧ (∀ res amounts sending rows sOk nowIso,
        amounts res.ID ≠ "" → res.Email ≠ "" →
        (resesHandleSendPayment res amounts sending rows sOk nowIso).flagDuring = true
        ∧ (resesHandleSendPayment res amounts sending rows sOk nowIso).flags res.ID = false
        ∧ (resesHandleSendPayment res amounts sending rows sOk nowIso).requests
            = [ResRequest.sendResesPayment res.ID res.Email (amounts res.ID)]) := by
  refine ⟨?_, ?_, ?_, ?_⟩
  · rw [inscHandleSendPayment, if_neg h]
    cases sendOk <;> cases logOk <;> rfl
  · rw [inscHandleSendPayment, if_neg h]
    cases sendOk <;> cases logOk <;> simp
  · rw [inscHandleSendPayment, if_neg h]
    cases sendOk <;> cases logOk <;> rfl
  · intro res amounts sending rows sOk nowIso ha he
    rw [resesHandleSendPayment, if_neg ha, if_neg he]
    cases sOk <;> exact ⟨rfl, by simp, rfl⟩

/-- C5 witness: the amended theorem at a concrete valid row, success and
failure outcomes. -/
theorem c5_witness :
    (inscHandleSendPayment cInsc 0 cInscLoadedState true true).flags 0 = false
    ∧ (inscHandleSendPayment cInsc 0 cInscLoadedState false true).flags 0 = false :=
  ⟨(c5_flag_cleared_and_request_trace cInsc 0 cInscLoadedState true true (by decide)).2.1,
   (c5_flag_cleared_and_request_trace cInsc 0 cInscLoadedState false true (by decide)).2.1⟩

/-! ## Claim C6 (corrected) -/

theorem matchesInscripcion_empty_term (i : Inscripcion) :
    matchesInscripcion "" i
      = (i.nombre_establecimiento != "" || i.razon_social != "") := by
  unfold matchesInscripcion jsIncludesLower jsLower
  have h : ("" : String).data = [] := rfl
  rw [h]
  simp [hasSub_nil]

theorem matchesRes_empty_term (r : Res) :
    matchesRes "" r = (r.nombreApellido != "" || r.dni != "" || r.especie != "") := by
  unfold matchesRes jsIncludesLower jsLower
  have h : ("" : String).data = [] := rfl
  rw [h]
  simp [hasSub_nil]

/-- C6 counterexample: a loaded row whose searchable fields
(`nombre_establecimiento`, `razon_social`) are both empty is excluded by the
filter even under the empty search term, so the filtered view does not equal
the full loaded page. -/
theorem c6_counterexample :
    cInscBlankState.searchTerm = ""
    ∧ cInscBlankState.inscripciones ≠ []
    ∧ filteredInscripciones cInscBlankState = [] := by
  refine ⟨rfl, by decide, rfl⟩

/-- C6 amended: changing the search term never touches the loaded items or
either total; under the empty search term the filtered view is exactly the
loaded rows having at least one non-empty searchable field (so rows with all
searchable fields empty are excluded even then), for both the Inscripciones
and the Reses filter. -/
theorem c6_filter_totals_and_empty_term (st : InscState) (t : String) (rows : List Res) :
    (inscSetSearchTerm st t).totalRecords = st.totalRecords
    ∧ (inscSetSearchTerm st t).totalPages = st.totalPages
    ∧ (inscSetSearchTerm st t).inscripciones = st.inscripciones
    ∧ filteredInscripciones (inscSetSearchTerm st "")
        = st.inscripciones.filter
            (fun i => i.nombre_establecimiento != "" || i.razon_social != "")
    ∧ filteredReses "" rows
        = rows.filter (fun r => r.nombreApellido != "" || r.dni != "" || r.especie != "") := by
  refine ⟨rfl, rfl, rfl, ?_, ?_⟩
  · unfold filteredInscripciones inscSetSearchTerm
    have hp : matchesInscripcion "" =
        fun i => (i.nombre_establecimiento != "" || i.razon_social != "") :=
      funext matchesInscripcion_empty_term
    rw [hp]
  · unfold filteredReses
    have hp : matchesRes "" =
        fun r => (r.nombreApellido != "" || r.dni != "" || r.especie != "") :=
      funext matchesRes_empty_term
    rw [hp]

/-! ## Claim C7 (confirmed): pagination safety -/

/-- Reachability invariant of the Inscripciones view: the current page is
at least 1, and whenever the view displays a non-empty page with no error
and no fetch in flight, the current page does not exceed the last reported
total.  `Hsrv` is the server-side paging contract the spec assumes: a page
that comes back non-empty is within the reported page count. -/
theorem inscReachable_invariant (srv : Nat → PageResult Inscripcion)
    (Hsrv : ∀ p, (srv p).data ≠ [] → p ≤ (srv p).total_pages) :
    ∀ s, InscReachable srv s →
      1 ≤ s.currentPage
      ∧ (s.error = none → s.loading = false → s.inscripciones ≠ [] →
          s.currentPage ≤ s.totalPages) := by
  intro s h
  induction h with
  | init =>
      refine ⟨le_refl 1, ?_⟩
      intro _ hl _
      simp [initialInscState] at hl
  | fetchResolve o hre hl hcons ih =>
      rename_i s'
      refine ⟨ih.1, ?_⟩
      intro _ _ hne
      show s'.currentPage ≤ (fetchInscripciones o).total_pages
      have hne' : (fetchInscripciones o).data ≠ [] := hne
      cases o with
      | transportError => exact absurd rfl hne'
      | response ok body =>
          cases ok with
          | false => exact absurd rfl hne'
          | true =>
              cases body with
              | none => exact absurd rfl hne'
              | some d =>
                  have hd : d = srv s'.currentPage := hcons d rfl
                  subst hd
                  exact Hsrv s'.currentPage hne'
  | fetchThrew hre hl ih =>
      refine ⟨ih.1, ?_⟩
      intro herr _ _
      simp [getInscripcionesWith] at herr
  | clickPrev hre hrend hdis ih =>
      rename_i s'
      have h1 : s'.currentPage ≠ 1 := by
        intro h
        simp [inscPrevDisabled, h] at hdis
      refine ⟨?_, ?_⟩
      · show 1 ≤ s'.currentPage - 1
        have := ih.1
        omega
      · intro _ hl _
        simp [inscStartFetch] at hl
  | clickNext hre hrend hdis ih =>
      refine ⟨?_, ?_⟩
      · show 1 ≤ _ + 1
        omega
      · intro _ hl _
        simp [inscStartFetch] at hl
  | search t hre ih => exact ih
  | toggleExpand i hre ih => exact ih

/-- Reachability invariant of the PagosRealizados payments table, same
shape as the Inscripciones one. -/
theorem paymentsReachable_invariant (srv : Nat → PageResult Payment)
    (Hsrv : ∀ p, (srv p).data ≠ [] → p ≤ (srv p).total_pages) :
    ∀ s, PaymentsReachable srv s →
      1 ≤ s.paymentsPage
      ∧ (s.errorPayments = none → s.loadingPayments = false → s.payments ≠ [] →
          s.paymentsPage ≤ s.paymentsTotalPages) := by
  intro s h
  induction h with
  | init =>
      refine ⟨le_refl 1, ?_⟩
      intro _ hl _
      simp [initialPaymentsState] at hl
  | fetchResolve o hre hl hcons ih =>
      rename_i s'
      refine ⟨ih.1, ?_⟩
      intro _ _ hne
      show s'.paymentsPage ≤ (fetchPayments o).total_pages
      have hne' : (fetchPayments o).data ≠ [] := hne
      cases o with
      | transportError => exact absurd rfl hne'
      | response ok body =>
          cases ok with
          | false => exact absurd rfl hne'
          | true =>
              cases body with
              | none => exact absurd rfl hne'
              | some d =>
                  have hd : d = srv s'.paymentsPage := hcons d rfl
                  subst hd
                  exact Hsrv s'.paymentsPage hne'
  | fetchThrew hre hl ih =>
      refine ⟨ih.1, ?_⟩
      intro herr _ _
      simp [getPaymentsWith] at herr
  | clickPrev hre hrend hdis ih =>
      refine ⟨?_, ?_⟩
      · show 1 ≤ paymentsPrevTarget _
        simp [paymentsPrevTarget]
      · intro _ hl _
        simp at hl
  | clickNext hre hrend hdis ih =>
      rename_i s'
      have hrend' := hrend
      simp only [paymentsControlsRendered, Bool.and_eq_true, Bool.not_eq_true',
        Option.isNone_iff_eq_none, List.isEmpty_eq_false] at hrend'
      obtain ⟨⟨hload, herr⟩, hne⟩ := hrend'
      have hle : s'.paymentsPage ≤ s'.paymentsTotalPages := ih.2 herr hload hne
      refine ⟨?_, ?_⟩
      · show 1 ≤ paymentsNextTarget s'.paymentsPage s'.paymentsTotalPages
        have h1 := ih.1
        simp only [paymentsNextTarget]
        omega
      · intro _ hl _
        simp at hl

/-- C7: in every reachable state of the Inscripciones view, a Previous
control that is rendered and enabled implies `currentPage ≠ 1` and no fetch
in flight, and its click requests a page inside `[1, totalPages]`; the Next
control likewise implies `currentPage ≠ totalPages`, no fetch in flight,
and an in-range request; the clamped PagosRealizados controls satisfy the
same bounds in every reachable state (while a fetch is in flight or
`totalPages = 0`, those controls are not rendered at all, so no request can
be issued through them).  The hypotheses on `srvI`/`srvP` are the server
paging contract the spec assumes. -/
theorem c7_pagination_controls_safe
    (srvI : Nat → PageResult Inscripcion) (srvP : Nat → PageResult Payment)
    (HsrvI : ∀ p, (srvI p).data ≠ [] → p ≤ (srvI p).total_pages)
    (HsrvP : ∀ p, (srvP p).data ≠ [] → p ≤ (srvP p).total_pages)
    (s : InscState) (hs : InscReachable srvI s)
    (q : PaymentsState) (hq : PaymentsReachable srvP q) :
    (inscControlsRendered s = true → inscPrevDisabled s = false →
      s.currentPage ≠ 1 ∧ s.loading = false
        ∧ 1 ≤ inscPrevTarget s ∧ inscPrevTarget s ≤ s.totalPages)
    ∧ (inscControlsRendered s = true → inscNextDisabled s = false →
      s.currentPage ≠ s.totalPages ∧ s.loading = false
        ∧ 1 ≤ inscNextTarget s ∧ inscNextTarget s ≤ s.totalPages)
    ∧ (paymentsControlsRendered q = true →
        paymentsPrevDisabled q.paymentsPage = false →
      q.paymentsPage ≠ 1
        ∧ 1 ≤ paymentsPrevTarget q.paymentsPage
        ∧ paymentsPrevTarget q.paymentsPage ≤ q.paymentsTotalPages)
    ∧ (paymentsControlsRendered q = true →
        paymentsNextDisabled q.paymentsPage q.paymentsTotalPages = false →
      q.paymentsPage ≠ q.paymentsTotalPages
        ∧ 1 ≤ paymentsNextTarget q.paymentsPage q.paymentsTotalPages
        ∧ paymentsNextTarget q.paymentsPage q.paymentsTotalPages ≤ q.paymentsTotalPages) := by
  have hinv := inscReachable_invariant srvI HsrvI s hs
  have hinvP := paymentsReachable_invariant srvP HsrvP q hq
  refine ⟨?_, ?_, ?_, ?_⟩
  · intro hr hd
    simp only [inscControlsRendered, Bool.and_eq_true, Bool.not_eq_true',
      Option.isNone_iff_eq_none, List.isEmpty_eq_false] at hr
    obtain ⟨⟨_, herr⟩, hfilt⟩ := hr
    simp only [inscPrevDisabled, Bool.or_eq_false_iff, beq_eq_false_iff_ne] at hd
    obtain ⟨hne1, hload⟩ := hd
    have hitems : s.inscripciones ≠ [] :=
      filter_ne_nil_of_ne_nil _ _ hfilt
    have hle : s.currentPage ≤ s.totalPages := hinv.2 herr hload hitems
    have h1 := hinv.1
    refine ⟨hne1, hload, ?_, ?_⟩
    · simp only [inscPrevTarget]; omega
    · simp only [inscPrevTarget]; omega
  · intro hr hd
    simp only [inscControlsRendered, Bool.and_eq_true, Bool.not_eq_true',
      Option.isNone_iff_eq_none, List.isEmpty_eq_false] at hr
    obtain ⟨⟨_, herr⟩, hfilt⟩ := hr
    simp only [inscNextDisabled, Bool.or_eq_false_iff, beq_eq_false_iff_ne] at hd
    obtain ⟨hneT, hload⟩ := hd
    have hitems : s.inscripciones ≠ [] :=
      filter_ne_nil_of_ne_nil _ _ hfilt
    have hle : s.currentPage ≤ s.totalPages := hinv.2 herr hload hitems
    have h1 := hinv.1
    refine ⟨hneT, hload, ?_, ?_⟩
    · simp only [inscNextTarget]; omega
    · simp only [inscNextTarget]; omega
  · intro hr hd
    simp only [paymentsControlsRendered, Bool.and_eq_true, Bool.not_eq_true',
      Option.isNone_iff_eq_none, List.isEmpty_eq_false] at hr
    obtain ⟨⟨hload, herr⟩, hne⟩ := hr
    simp only [paymentsPrevDisabled, beq_eq_false_iff_ne] at hd
    have hle : q.paymentsPage ≤ q.paymentsTotalPages := hinvP.2 herr hload hne
    have h1 := hinvP.1
    refine ⟨hd, ?_, ?_⟩
    · simp only [paymentsPrevTarget]
      exact Nat.le_max_right _ 1
    · simp only [paymentsPrevTarget]
      exact Nat.max_le.mpr ⟨by omega, by omega⟩
  · intro hr hd
    simp only [paymentsControlsRendered, Bool.and_eq_true, Bool.not_eq_true',
      Option.isNone_iff_eq_none, List.isEmpty_eq_false] at hr
    obtain ⟨⟨hload, herr⟩, hne⟩ := hr
    simp only [paymentsNextDisabled, beq_eq_false_iff_ne] at hd
    have hle : q.paymentsPage ≤ q.paymentsTotalPages := hinvP.2 herr hload hne
    have h1 := hinvP.1
    refine ⟨hd, ?_, ?_⟩
    · simp only [paymentsNextTarget]
      exact Nat.le_min.mpr ⟨by omega, by omega⟩
    · simp only [paymentsNextTarget]
      exact Nat.min_le_right _ _

/-! Witness fixtures for C7: a two-page server and the state after a
successful first fetch. -/

/-- A concrete payment row. -/
def cPayment : Payment :=
  { payment_id := "P-1"
    inscription_id := "I-1"
    permiso_id := ""
    status := "approved"
    amount := "100"
    email := "a@b.c"
    date_created := "2026-01-01" }

/-- A concrete Inscripciones server with two pages of one row each. -/
def cSrvI : Nat → PageResult Inscripcion := fun p =>
  if p ≤ 2 then { data := [cInsc], total_records := 2, page := p, limit := 10, total_pages := 2 }
  else { data := [], total_records := 2, page := p, limit := 10, total_pages := 2 }

/-- A concrete payments server with two pages of one row each. -/
def cSrvP : Nat → PageResult Payment := fun p =>
  if p ≤ 2 then { data := [cPayment], total_records := 2, page := p, limit := 10, total_pages := 2 }
  else { data := [], total_records := 2, page := p, limit := 10, total_pages := 2 }

theorem cSrvI_contract : ∀ p, (cSrvI p).data ≠ [] → p ≤ (cSrvI p).total_pages := by
  intro p h
  by_cases hp : p ≤ 2
  · simp [cSrvI, hp]
  · exfalso
    apply h
    simp [cSrvI, hp]

theorem cSrvP_contract : ∀ p, (cSrvP p).data ≠ [] → p ≤ (cSrvP p).total_pages := by
  intro p h
  by_cases hp : p ≤ 2
  · simp [cSrvP, hp]
  · exfalso
    apply h
    simp [cSrvP, hp]

/-- The Inscripciones state after the mount-time fetch of page 1 succeeds
against `cSrvI`. -/
def cInscFetched : InscState :=
  getInscripciones initialInscState (.response true (some (cSrvI 1)))

/-- The payments state after the mount-time fetch of page 1 succeeds
against `cSrvP`. -/
def cPayFetched : PaymentsState :=
  getPayments initialPaymentsState (.response true (some (cSrvP 1)))

theorem cInscFetched_reachable : InscReachable cSrvI cInscFetched :=
  InscReachable.fetchResolve (.response true (some (cSrvI 1))) InscReachable.init rfl
    (by
      intro d hd
      injection hd with h1 h2
      injection h2 with h3
      exact h3.symm)

theorem cPayFetched_reachable : PaymentsReachable cSrvP cPayFetched :=
  PaymentsReachable.fetchResolve (.response true (some (cSrvP 1))) PaymentsReachable.init rfl
    (by
      intro d hd
      injection hd with h1 h2
      injection h2 with h3
      exact h3.symm)

/-- C7 witness: the theorem at the concrete reachable post-fetch states,
with both Next controls rendered and enabled. -/
theorem c7_witness :
    (1 ≤ inscNextTarget cInscFetched ∧ inscNextTarget cInscFetched ≤ cInscFetched.totalPages)
    ∧ (1 ≤ paymentsNextTarget cPayFetched.paymentsPage cPayFetched.paymentsTotalPages
        ∧ paymentsNextTarget cPayFetched.paymentsPage cPayFetched.paymentsTotalPages
            ≤ cPayFetched.paymentsTotalPages) := by
  have h := c7_pagination_controls_safe cSrvI cSrvP cSrvI_contract cSrvP_contract
    cInscFetched cInscFetched_reachable cPayFetched cPayFetched_reachable
  exact ⟨(h.2.1 (by decide) (by decide)).2.2, (h.2.2.2 (by decide) (by decide)).2⟩

end Caza
